import Mathlib

/-!
Verification development for `Scripts/ci-host/cleanup.py` (session-ios CI-host
simulator cleanup). The script prunes unavailable simulators, lists the
remaining devices, and for each device either honours a keep-alive marker file
(named by the device udid, mtime = lease expiry), removes an expired marker and
deletes the device, or deletes an unleased device whose `dataPath` is at least
an hour old. We embed the filesystem, the external-call outcomes and the loop
body as explicit state-passing Lean functions, and prove the behavioural
properties of the decision logic.

Timestamps (`time.time()` and file mtimes) are modelled as `Int`; the script
only compares them, so the ordering structure is all that matters.
-/

namespace Cleanup

/-- Kind of a filesystem entry: `os.path.isfile` distinguishes plain files
(keep-alive markers) from directories (`dataPath`, `logPath`). -/
inductive EntryKind where
  | file
  | dir
deriving DecidableEq, Repr

/-- A filesystem entry: its kind and its modification time
(`os.path.getmtime`). -/
structure Entry where
  kind : EntryKind
  mtime : Int
deriving DecidableEq, Repr

/-- The filesystem visible to the script, as a finite association of paths to
entries. Marker files live at the path equal to the device udid (the script
`chdir`s to its own directory first, so these are relative names). -/
structure FS where
  entries : List (String × Entry)
deriving DecidableEq, Repr

/-- Look a path up in the filesystem. -/
def FS.lookup (fs : FS) (p : String) : Option Entry :=
  (fs.entries.find? (fun e => e.1 == p)).map (·.2)

/-- `os.path.isfile p`: the path exists and is a plain file. -/
def FS.isfile (fs : FS) (p : String) : Bool :=
  match fs.lookup p with
  | some e => e.kind == EntryKind.file
  | none => false

/-- `os.path.exists p`: the path exists (file or directory). -/
def FS.pathExists (fs : FS) (p : String) : Bool :=
  (fs.lookup p).isSome

/-- `os.path.getmtime p`: `some` mtime when the path exists, `none` when the
call would raise `OSError` (path absent / stat unreadable). -/
def FS.getmtime (fs : FS) (p : String) : Option Int :=
  (fs.lookup p).map (·.mtime)

/-- Remove a path (`os.remove` on a file, `shutil.rmtree` on a directory). -/
def FS.remove (fs : FS) (p : String) : FS :=
  ⟨fs.entries.filter (fun e => !(e.1 == p))⟩

/-- One device record from `simctl list devices -je`: the fields the script
reads (`dev["udid"]`, `dev["dataPath"]`, `dev["logPath"]`). -/
structure Device where
  udid : String
  dataPath : String
  logPath : String
deriving DecidableEq, Repr

/-- Observable actions the script performs, in order. -/
inductive Event where
  | pruneCall (exitCode : Int)
  | listCall
  | removeMarker (path : String)
  | simctlDelete (udid : String) (exitCode : Int)
  | rmtreeLog (path : String)
deriving DecidableEq, Repr

/-- Events produced by the per-device loop body (as opposed to the global
prune/list calls that precede it). -/
def Event.isDeviceEvent : Event → Bool
  | .pruneCall _ => false
  | .listCall => false
  | .removeMarker _ => true
  | .simctlDelete _ _ => true
  | .rmtreeLog _ => true

/-- The unhandled Python exceptions that abort the run, and the
`check=True` failure of the prune call. -/
inductive RunError where
  | pruneFailed (exitCode : Int)
  | removeMarkerFailed (path : String)
  | getmtimeFailed (path : String)
  | rmtreeFailed (path : String)
deriving DecidableEq, Repr

/-- Environment oracles for the fallible external effects: whether `os.remove`
raises at a path, whether `shutil.rmtree` raises at a path, and the exit code
`subprocess.run(["xcrun","simctl","delete",udid])` returns (the script passes
no `check=True` there, so the code is ignored). -/
structure Oracles where
  removeFails : String → Bool
  rmtreeFails : String → Bool
  deleteExit : String → Int

/-- Run state: the filesystem, the trace of actions performed so far, the
udids the loop has reached (control-flow instrumentation), and the lines the
script itself prints (the source contains no output statement, so nothing
ever appends to `output`). -/
structure St where
  fs : FS
  trace : List Event
  examined : List String
  output : List String
deriving DecidableEq, Repr

/-- Lines 20-28 of `cleanup.py`: decide `nuke_it` and perform the expired
marker removal.

```
if os.path.isfile(udid):
    if os.path.getmtime(udid) <= now:
        nuke_it = True
        os.remove(udid)
    # else the keepalive file is still active
elif os.path.getmtime(dev["dataPath"]) <= now - 3600:
    # no keep-alive and more than an hour old so kill it
    nuke_it = True
```
-/
def markerPhase (o : Oracles) (now : Int) (dev : Device) (st : St) :
    Except (St × RunError) (St × Bool) :=
  if st.fs.isfile dev.udid then
    match st.fs.getmtime dev.udid with
    | none => .error (st, .getmtimeFailed dev.udid)
    | some m =>
      if m ≤ now then
        if o.removeFails dev.udid then
          .error (st, .removeMarkerFailed dev.udid)
        else
          .ok ({ st with
                   fs := st.fs.remove dev.udid,
                   trace := st.trace ++ [Event.removeMarker dev.udid] }, true)
      else
        .ok (st, false)
  else
    match st.fs.getmtime dev.dataPath with
    | none => .error (st, .getmtimeFailed dev.dataPath)
    | some m => .ok (st, decide (m ≤ now - 3600))

/-- Lines 30-33 of `cleanup.py`: the deletion of a marked device.

```
subprocess.run(["xcrun", "simctl", "delete", udid])
if os.path.exists(dev["logPath"]):
    shutil.rmtree(dev["logPath"])
```

The `simctl delete` call is issued without `check=True`; its exit code is
recorded in the trace and otherwise ignored. -/
def deletePhase (o : Oracles) (dev : Device) (st : St) :
    Except (St × RunError) St :=
  let st2 : St :=
    { st with
        trace := st.trace ++ [Event.simctlDelete dev.udid (o.deleteExit dev.udid)] }
  if st2.fs.pathExists dev.logPath then
    if o.rmtreeFails dev.logPath then
      .error (st2, .rmtreeFailed dev.logPath)
    else
      .ok { st2 with
              fs := st2.fs.remove dev.logPath,
              trace := st2.trace ++ [Event.rmtreeLog dev.logPath] }
  else
    .ok st2

/-- One iteration of the per-device loop (lines 18-33): record that the loop
reached this device, run the marker/staleness decision, then delete when
marked. -/
def processDevice (o : Oracles) (now : Int) (dev : Device) (st : St) :
    Except (St × RunError) St :=
  let st0 : St := { st with examined := st.examined ++ [dev.udid] }
  match markerPhase o now dev st0 with
  | .error e => .error e
  | .ok (st1, nuke) => if nuke then deletePhase o dev st1 else .ok st1

/-- The flattened per-device loop: an unhandled exception stops the whole
iteration as in Python. -/
def runDevices (o : Oracles) (now : Int) : St → List Device →
    Except (St × RunError) St
  | st, [] => .ok st
  | st, d :: ds =>
    match processDevice o now d st with
    | .error e => .error e
    | .ok st' => runDevices o now st' ds

/-- The flattened inventory: `for rt, devs in simctl_list["devices"].items():
for dev in devs:`. -/
def allDevices (inv : List (String × List Device)) : List Device :=
  inv.flatMap (fun g => g.2)

/-- The whole script run: the unavailable-devices prune
(`subprocess.run([...,"delete","unavailable"], check=True)` — a non-zero exit
raises `CalledProcessError` and aborts), then the inventory listing, then the
per-device loop. The inventory `inv` is the parsed output of the listing
call; `now` is the single `time.time()` snapshot. -/
def script (o : Oracles) (pruneExit : Int) (inv : List (String × List Device))
    (now : Int) (fs : FS) : Except (St × RunError) St :=
  let st0 : St :=
    { fs := fs, trace := [Event.pruneCall pruneExit], examined := [], output := [] }
  if pruneExit ≠ 0 then
    .error (st0, .pruneFailed pruneExit)
  else
    let st1 : St := { st0 with trace := st0.trace ++ [Event.listCall] }
    runDevices o now st1 (allDevices inv)

/-- The state a run ends in, whether it completed or aborted. -/
def resSt (r : Except (St × RunError) St) : St :=
  match r with
  | .ok s => s
  | .error (s, _) => s

/-- The paths the per-device loop can ever remove while processing the
devices of `l`: their marker files (named by udid) and their log
directories. -/
def touched (l : List Device) : List String :=
  l.flatMap (fun d => [d.udid, d.logPath])

/-- Run-two inventory: the devices of `l` that were not successfully deleted
in a run with trace `tr` — `simctl delete` removes a device from the next
listing exactly when it exits 0. -/
def survivors (l : List Device) (tr : List Event) : List Device :=
  l.filter (fun d => decide (Event.simctlDelete d.udid 0 ∉ tr))

/-! ## General behaviour lemmas -/

theorem find_filter_aux (l : List (String × Entry)) (p q : String) :
    (l.filter (fun e => !(e.1 == p))).find? (fun e => e.1 == q) =
      if q = p then none else l.find? (fun e => e.1 == q) := by
  by_cases hqp : q = p
  · subst hqp
    simp only [if_pos rfl]
    induction l with
    | nil => simp
    | cons e t ih =>
      by_cases hp : e.1 = q
      · simp [List.filter_cons, hp, ih]
      · simp [List.filter_cons, List.find?_cons, hp, ih]
  · have hqp' : ¬ p = q := fun h => hqp h.symm
    simp only [if_neg hqp]
    induction l with
    | nil => simp
    | cons e t ih =>
      by_cases hp : e.1 = p
      · have hq : ¬ (e.1 = q) := fun h => hqp ((h ▸ hp : q = p))
        simp [List.filter_cons, List.find?_cons, hp, hq, hqp, hqp', ih]
      · by_cases hq : e.1 = q
        · simp [List.filter_cons, List.find?_cons, hp, hq, hqp, hqp']
        · simp [List.filter_cons, List.find?_cons, hp, hq, hqp, hqp', ih]

theorem FS.lookup_remove (fs : FS) (p q : String) :
    (fs.remove p).lookup q = if q = p then none else fs.lookup q := by
  unfold FS.remove FS.lookup
  simp only [find_filter_aux]
  split <;> rfl



theorem markerPhase_spec (o : Oracles) (now : Int) (dev : Device) (st : St) :
    (∃ p, markerPhase o now dev st = .error (st, .getmtimeFailed p)) ∨
    markerPhase o now dev st = .error (st, .removeMarkerFailed dev.udid) ∨
    (∃ b, markerPhase o now dev st = .ok (st, b)) ∨
    markerPhase o now dev st =
      .ok ({ st with fs := st.fs.remove dev.udid,
                     trace := st.trace ++ [Event.removeMarker dev.udid] }, true) := by
  unfold markerPhase
  repeat' split
  all_goals first
    | exact Or.inl ⟨dev.udid, rfl⟩
    | exact Or.inl ⟨dev.dataPath, rfl⟩
    | exact Or.inr (Or.inl rfl)
    | exact Or.inr (Or.inr (Or.inl ⟨false, rfl⟩))
    | exact Or.inr (Or.inr (Or.inl ⟨true, rfl⟩))
    | exact Or.inr (Or.inr (Or.inl ⟨_, rfl⟩))
    | exact Or.inr (Or.inr (Or.inr rfl))

theorem deletePhase_spec (o : Oracles) (dev : Device) (st : St) :
    deletePhase o dev st =
      .error ({ st with
                  trace := st.trace ++ [Event.simctlDelete dev.udid (o.deleteExit dev.udid)] },
              .rmtreeFailed dev.logPath) ∨
    deletePhase o dev st =
      .ok { st with
              trace := st.trace ++ [Event.simctlDelete dev.udid (o.deleteExit dev.udid)] } ∨
    deletePhase o dev st =
      .ok { st with
              fs := st.fs.remove dev.logPath,
              trace := st.trace ++ [Event.simctlDelete dev.udid (o.deleteExit dev.udid),
                                    Event.rmtreeLog dev.logPath] } := by
  unfold deletePhase
  by_cases hp : st.fs.pathExists dev.logPath
  · by_cases hr : o.rmtreeFails dev.logPath
    · simp [hp, hr]
    · simp [hp, hr]
  · simp [hp]


theorem processDevice_spec (o : Oracles) (now : Int) (dev : Device) (st : St) :
    ∃ evs,
      (resSt (processDevice o now dev st)).trace = st.trace ++ evs ∧
      (∀ e ∈ evs, e.isDeviceEvent = true) ∧
      (resSt (processDevice o now dev st)).examined = st.examined ++ [dev.udid] ∧
      (resSt (processDevice o now dev st)).output = st.output ∧
      ∀ p, p ≠ dev.udid → p ≠ dev.logPath →
        (resSt (processDevice o now dev st)).fs.lookup p = st.fs.lookup p := by
  unfold processDevice
  rcases markerPhase_spec o now dev { st with examined := st.examined ++ [dev.udid] } with
    ⟨q, hm⟩ | hm | ⟨b, hm⟩ | hm
  · exact ⟨[], by simp [hm, resSt]⟩
  · exact ⟨[], by simp [hm, resSt]⟩
  · cases b
    · exact ⟨[], by simp [hm, resSt]⟩
    · rcases deletePhase_spec o dev { st with examined := st.examined ++ [dev.udid] } with hd | hd | hd
      · refine ⟨[Event.simctlDelete dev.udid (o.deleteExit dev.udid)], ?_⟩
        simp [hm, hd, resSt, Event.isDeviceEvent]
      · refine ⟨[Event.simctlDelete dev.udid (o.deleteExit dev.udid)], ?_⟩
        simp [hm, hd, resSt, Event.isDeviceEvent]
      · refine ⟨[Event.simctlDelete dev.udid (o.deleteExit dev.udid), Event.rmtreeLog dev.logPath], ?_⟩
        simp [hm, hd, resSt, Event.isDeviceEvent]
        intro p h1 h2
        rw [FS.lookup_remove]
        simp [h2]
  · rcases deletePhase_spec o dev
      { st with fs := st.fs.remove dev.udid, examined := st.examined ++ [dev.udid],
                trace := st.trace ++ [Event.removeMarker dev.udid] } with hd | hd | hd
    · refine ⟨[Event.removeMarker dev.udid,
               Event.simctlDelete dev.udid (o.deleteExit dev.udid)], ?_⟩
      simp [hm, hd, resSt, Event.isDeviceEvent]
      intro p h1 h2
      rw [FS.lookup_remove]
      simp [h1]
    · refine ⟨[Event.removeMarker dev.udid,
               Event.simctlDelete dev.udid (o.deleteExit dev.udid)], ?_⟩
      simp [hm, hd, resSt, Event.isDeviceEvent]
      intro p h1 h2
      rw [FS.lookup_remove]
      simp [h1]
    · refine ⟨[Event.removeMarker dev.udid,
               Event.simctlDelete dev.udid (o.deleteExit dev.udid),
               Event.rmtreeLog dev.logPath], ?_⟩
      simp [hm, hd, resSt, Event.isDeviceEvent]
      intro p h1 h2
      rw [FS.lookup_remove, FS.lookup_remove]
      simp [h1, h2]


theorem runDevices_append (o : Oracles) (now : Int) (st : St) (l1 l2 : List Device) :
    runDevices o now st (l1 ++ l2) =
      match runDevices o now st l1 with
      | .error e => .error e
      | .ok st' => runDevices o now st' l2 := by
  induction l1 generalizing st with
  | nil => rfl
  | cons d ds ih =>
    simp only [List.cons_append, runDevices]
    cases processDevice o now d st with
    | error e => rfl
    | ok st' => exact ih st'

theorem runDevices_spec (o : Oracles) (now : Int) (st : St) (l : List Device) :
    ∃ evs us,
      (resSt (runDevices o now st l)).trace = st.trace ++ evs ∧
      (∀ e ∈ evs, e.isDeviceEvent = true) ∧
      (resSt (runDevices o now st l)).examined = st.examined ++ us ∧
      (resSt (runDevices o now st l)).output = st.output ∧
      ∀ p, (∀ d ∈ l, p ≠ d.udid ∧ p ≠ d.logPath) →
        (resSt (runDevices o now st l)).fs.lookup p = st.fs.lookup p := by
  induction l generalizing st with
  | nil => exact ⟨[], [], by simp [runDevices, resSt], by simp, by simp [runDevices, resSt],
      by simp [runDevices, resSt], fun p _ => by simp [runDevices, resSt]⟩
  | cons d ds ih =>
    cases hp : processDevice o now d st with
    | error e =>
      rcases e with ⟨s, err⟩
      obtain ⟨evs1, h1t, h1e, h1x, h1o, h1f⟩ := processDevice_spec o now d st
      rw [hp] at h1t h1x h1o h1f
      simp only [resSt] at h1t h1x h1o h1f
      refine ⟨evs1, [d.udid], ?_, h1e, ?_, ?_, ?_⟩
      · simp only [runDevices, hp, resSt]; exact h1t
      · simp only [runDevices, hp, resSt]; exact h1x
      · simp only [runDevices, hp, resSt]; exact h1o
      · intro p hall
        simp only [runDevices, hp, resSt]
        exact h1f p (hall d (by simp)).1 (hall d (by simp)).2
    | ok st' =>
      obtain ⟨evs1, h1t, h1e, h1x, h1o, h1f⟩ := processDevice_spec o now d st
      rw [hp] at h1t h1x h1o h1f
      simp only [resSt] at h1t h1x h1o h1f
      obtain ⟨evs2, us2, h2t, h2e, h2x, h2o, h2f⟩ := ih st'
      have hred : runDevices o now st (d :: ds) = runDevices o now st' ds := by
        simp only [runDevices, hp]
      refine ⟨evs1 ++ evs2, d.udid :: us2, ?_, ?_, ?_, ?_, ?_⟩
      · rw [hred, h2t, h1t, List.append_assoc]
      · intro e he
        rcases List.mem_append.mp he with h | h
        · exact h1e e h
        · exact h2e e h
      · rw [hred, h2x, h1x, List.append_assoc]
        rfl
      · rw [hred, h2o, h1o]
      · intro p hall
        have hd := hall d (by simp)
        have htail : ∀ d2 ∈ ds, p ≠ d2.udid ∧ p ≠ d2.logPath :=
          fun d2 hm => hall d2 (by simp [hm])
        rw [hred, h2f p htail, h1f p hd.1 hd.2]


/-- C1: a device whose lease marker exists with modification time strictly
after `now` is fully protected: the loop records the visit and otherwise
leaves the state untouched — no deletion call, no `logPath` removal, and the
marker is neither removed nor modified. -/
theorem active_lease_protected (o : Oracles) (now m : Int) (d : Device) (st : St)
    (hf : st.fs.isfile d.udid = true)
    (hm : st.fs.getmtime d.udid = some m)
    (hact : now < m) :
    processDevice o now d st = .ok { st with examined := st.examined ++ [d.udid] } := by
  have hnle : ¬ (m ≤ now) := not_le.mpr hact
  unfold processDevice markerPhase
  simp [hf, hm, hnle]

/-- C2: a device whose lease marker has modification time at or before `now`
is reclaimed: the marker file is removed, the `simctl delete` call is issued,
and the `logPath` is absent afterwards (removed when it was present). The
hypotheses say nothing about `d.dataPath` — it may even be missing from the
filesystem — which shows the `dataPath` age is not consulted in this case. -/
theorem expired_lease_reclaimed (o : Oracles) (now m : Int) (d : Device) (st : St)
    (hf : st.fs.isfile d.udid = true)
    (hm : st.fs.getmtime d.udid = some m)
    (hexp : m ≤ now)
    (hrm : o.removeFails d.udid = false)
    (hrt : o.rmtreeFails d.logPath = false) :
    ∃ st', processDevice o now d st = .ok st' ∧
      st'.fs.lookup d.udid = none ∧
      st'.fs.lookup d.logPath = none ∧
      Event.simctlDelete d.udid (o.deleteExit d.udid) ∈ st'.trace := by
  by_cases hex : ((st.fs.remove d.udid).pathExists d.logPath)
  · refine ⟨{ fs := (st.fs.remove d.udid).remove d.logPath,
              trace := (st.trace ++ [Event.removeMarker d.udid])
                        ++ [Event.simctlDelete d.udid (o.deleteExit d.udid)]
                        ++ [Event.rmtreeLog d.logPath],
              examined := st.examined ++ [d.udid], output := st.output },
            ?_, ?_, ?_, ?_⟩
    · unfold processDevice markerPhase deletePhase
      simp [hf, hm, hexp, hrm, hrt, hex]
    · simp only [FS.lookup_remove]
      split <;> simp
    · simp [FS.lookup_remove]
    · simp
  · refine ⟨{ fs := st.fs.remove d.udid,
              trace := (st.trace ++ [Event.removeMarker d.udid])
                        ++ [Event.simctlDelete d.udid (o.deleteExit d.udid)],
              examined := st.examined ++ [d.udid], output := st.output },
            ?_, ?_, ?_, ?_⟩
    · unfold processDevice markerPhase deletePhase
      simp [hf, hm, hexp, hrm, hrt, hex]
    · simp [FS.lookup_remove]
    · unfold FS.pathExists at hex
      simpa using hex
    · simp


/-- C3: with no lease marker and a readable `dataPath` modification time `m`,
the device is reclaimed exactly when `now - m ≥ 3600` (the one-hour boundary
itself included): in that case the `simctl delete` call is issued and the
`logPath` is absent afterwards; when `now - m < 3600` the loop leaves the
state untouched apart from recording the visit. -/
theorem absent_lease_staleness_boundary (o : Oracles) (now m : Int) (d : Device) (st : St)
    (hf : st.fs.isfile d.udid = false)
    (hm : st.fs.getmtime d.dataPath = some m)
    (hrt : o.rmtreeFails d.logPath = false) :
    (3600 ≤ now - m →
      ∃ st', processDevice o now d st = .ok st' ∧
        Event.simctlDelete d.udid (o.deleteExit d.udid) ∈ st'.trace ∧
        st'.fs.lookup d.logPath = none) ∧
    (now - m < 3600 →
      processDevice o now d st = .ok { st with examined := st.examined ++ [d.udid] }) := by
  constructor
  · intro hstale
    have hm' : m ≤ now - 3600 := by omega
    by_cases hex : (st.fs.pathExists d.logPath)
    · refine ⟨{ fs := st.fs.remove d.logPath,
                trace := st.trace ++ [Event.simctlDelete d.udid (o.deleteExit d.udid)]
                          ++ [Event.rmtreeLog d.logPath],
                examined := st.examined ++ [d.udid], output := st.output },
              ?_, ?_, ?_⟩
      · unfold processDevice markerPhase deletePhase
        simp [hf, hm, hm', hrt, hex]
      · simp
      · simp [FS.lookup_remove]
    · refine ⟨{ fs := st.fs,
                trace := st.trace ++ [Event.simctlDelete d.udid (o.deleteExit d.udid)],
                examined := st.examined ++ [d.udid], output := st.output },
              ?_, ?_, ?_⟩
      · unfold processDevice markerPhase deletePhase
        simp [hf, hm, hm', hex]
      · simp
      · unfold FS.pathExists at hex
        simpa using hex
  · intro hfresh
    have hm' : ¬ (m ≤ now - 3600) := by omega
    unfold processDevice markerPhase
    simp [hf, hm, hm']


/-- C4 (amended): when removing an expired lease marker fails, the `OSError`
from `os.remove` propagates unhandled — the run aborts at that device with no
warning produced, and no subsequent device is evaluated. -/
theorem marker_remove_failure_aborts (o : Oracles) (now m : Int) (d : Device)
    (st : St) (ds : List Device)
    (hf : st.fs.isfile d.udid = true)
    (hm : st.fs.getmtime d.udid = some m)
    (hexp : m ≤ now)
    (hrm : o.removeFails d.udid = true) :
    runDevices o now st (d :: ds) =
      .error ({ st with examined := st.examined ++ [d.udid] },
              .removeMarkerFailed d.udid) := by
  have hpd : processDevice o now d st =
      .error ({ st with examined := st.examined ++ [d.udid] },
              .removeMarkerFailed d.udid) := by
    unfold processDevice markerPhase
    simp [hf, hm, hexp, hrm]
  simp [runDevices, hpd]

/-- C4 counterexample: a concrete run in which removing the expired marker of
device `u1` fails. The whole run aborts with the unhandled error, device `u2`
is never examined, and no warning line is produced. -/
theorem marker_remove_failure_cex :
    script ⟨fun p => p == "u1", fun _ => false, fun _ => 0⟩ 0
        [("rt", [⟨"u1", "data1", "log1"⟩, ⟨"u2", "data2", "log2"⟩])] 100
        ⟨[("u1", ⟨EntryKind.file, 50⟩), ("data2", ⟨EntryKind.dir, 100⟩)]⟩ =
      .error (⟨⟨[("u1", ⟨EntryKind.file, 50⟩), ("data2", ⟨EntryKind.dir, 100⟩)]⟩,
               [Event.pruneCall 0, Event.listCall], ["u1"], []⟩,
              .removeMarkerFailed "u1") := rfl

/-- C5 (amended): the `simctl delete` exit code is ignored entirely — even
with a non-zero exit the loop proceeds to the remaining devices — but a
failure of `shutil.rmtree` on the log directory raises and aborts the run at
that device, and no failures are collected or reported at the end. -/
theorem delete_exit_ignored_rmtree_aborts (o : Oracles) (now m : Int)
    (d : Device) (st : St) (ds : List Device)
    (hf : st.fs.isfile d.udid = false)
    (hm : st.fs.getmtime d.dataPath = some m)
    (hstale : m ≤ now - 3600) :
    (o.rmtreeFails d.logPath = false →
      ∃ st', processDevice o now d st = .ok st' ∧
        runDevices o now st (d :: ds) = runDevices o now st' ds) ∧
    (st.fs.pathExists d.logPath = true → o.rmtreeFails d.logPath = true →
      runDevices o now st (d :: ds) =
        .error ({ st with
                    trace := st.trace ++
                      [Event.simctlDelete d.udid (o.deleteExit d.udid)],
                    examined := st.examined ++ [d.udid] },
                .rmtreeFailed d.logPath)) := by
  constructor
  · intro hrt
    by_cases hex : (st.fs.pathExists d.logPath)
    · have hpd : processDevice o now d st =
          .ok { fs := st.fs.remove d.logPath,
                trace := st.trace ++ [Event.simctlDelete d.udid (o.deleteExit d.udid)]
                          ++ [Event.rmtreeLog d.logPath],
                examined := st.examined ++ [d.udid], output := st.output } := by
        unfold processDevice markerPhase deletePhase
        simp [hf, hm, hstale, hrt, hex]
      exact ⟨_, hpd, by simp [runDevices, hpd]⟩
    · have hpd : processDevice o now d st =
          .ok { fs := st.fs,
                trace := st.trace ++ [Event.simctlDelete d.udid (o.deleteExit d.udid)],
                examined := st.examined ++ [d.udid], output := st.output } := by
        unfold processDevice markerPhase deletePhase
        simp [hf, hm, hstale, hex]
      exact ⟨_, hpd, by simp [runDevices, hpd]⟩
  · intro hex hrt
    have hpd : processDevice o now d st =
        .error ({ st with
                    trace := st.trace ++
                      [Event.simctlDelete d.udid (o.deleteExit d.udid)],
                    examined := st.examined ++ [d.udid] },
                .rmtreeFailed d.logPath) := by
      unfold processDevice markerPhase deletePhase
      simp [hf, hm, hstale, hex, hrt]
    simp [runDevices, hpd]

/-- C5 counterexample: a concrete run with two stale devices in which removing
the first device's log directory fails. The run aborts with the unhandled
error: device `u2` is never evaluated and nothing is collected or reported. -/
theorem device_deletion_failure_cex :
    script ⟨fun _ => false, fun p => p == "log1", fun _ => 0⟩ 0
        [("rt", [⟨"u1", "data1", "log1"⟩, ⟨"u2", "data2", "log2"⟩])] 4000
        ⟨[("data1", ⟨EntryKind.dir, 0⟩), ("log1", ⟨EntryKind.dir, 0⟩),
          ("data2", ⟨EntryKind.dir, 0⟩)]⟩ =
      .error (⟨⟨[("data1", ⟨EntryKind.dir, 0⟩), ("log1", ⟨EntryKind.dir, 0⟩),
                 ("data2", ⟨EntryKind.dir, 0⟩)]⟩,
               [Event.pruneCall 0, Event.listCall, Event.simctlDelete "u1" 0],
               ["u1"], []⟩,
              .rmtreeFailed "log1") := rfl

/-- C9: when a device has no lease marker and its `dataPath` modification time
cannot be read (the path is absent), `os.path.getmtime` raises an unhandled
`OSError`: the whole run aborts there and no subsequent device is evaluated. -/
theorem missing_datapath_aborts_run (o : Oracles) (now : Int) (d : Device)
    (st : St) (ds : List Device)
    (hf : st.fs.isfile d.udid = false)
    (hm : st.fs.getmtime d.dataPath = none) :
    runDevices o now st (d :: ds) =
      .error ({ st with examined := st.examined ++ [d.udid] },
              .getmtimeFailed d.dataPath) := by
  have hpd : processDevice o now d st =
      .error ({ st with examined := st.examined ++ [d.udid] },
              .getmtimeFailed d.dataPath) := by
    unfold processDevice markerPhase
    simp [hf, hm]
  simp [runDevices, hpd]


theorem FS.isfile_eq_false_of_lookup_none (fs : FS) (p : String)
    (h : fs.lookup p = none) : fs.isfile p = false := by
  unfold FS.isfile
  rw [h]

/-- C10: for a device with an expired marker, removing the marker strictly
precedes the `simctl delete` call in the action trace, and once the delete
call is issued the marker is gone — whether the rest of the iteration
succeeds or fails. If the marker removal itself fails, the run aborts before
any delete call is issued: the trace is left unchanged. -/
theorem marker_removed_before_delete (o : Oracles) (now m : Int) (d : Device)
    (st : St)
    (hf : st.fs.isfile d.udid = true)
    (hm : st.fs.getmtime d.udid = some m)
    (hexp : m ≤ now) :
    (o.removeFails d.udid = false →
      ∃ tail,
        (resSt (processDevice o now d st)).trace =
          st.trace ++ [Event.removeMarker d.udid,
                       Event.simctlDelete d.udid (o.deleteExit d.udid)] ++ tail ∧
        (resSt (processDevice o now d st)).fs.isfile d.udid = false) ∧
    (o.removeFails d.udid = true →
      processDevice o now d st =
        .error ({ st with examined := st.examined ++ [d.udid] },
                .removeMarkerFailed d.udid)) := by
  constructor
  · intro hrm
    by_cases hex : ((st.fs.remove d.udid).pathExists d.logPath)
    · by_cases hrt : (o.rmtreeFails d.logPath)
      · have hpd : processDevice o now d st =
            .error ({ fs := st.fs.remove d.udid,
                      trace := (st.trace ++ [Event.removeMarker d.udid])
                                ++ [Event.simctlDelete d.udid (o.deleteExit d.udid)],
                      examined := st.examined ++ [d.udid], output := st.output },
                    .rmtreeFailed d.logPath) := by
          unfold processDevice markerPhase deletePhase
          simp [hf, hm, hexp, hrm, hex, hrt]
        refine ⟨[], ?_, ?_⟩
        · rw [hpd]
          simp [resSt]
        · rw [hpd]
          exact FS.isfile_eq_false_of_lookup_none _ _ (by simp [resSt, FS.lookup_remove])
      · have hpd : processDevice o now d st =
            .ok { fs := (st.fs.remove d.udid).remove d.logPath,
                  trace := (st.trace ++ [Event.removeMarker d.udid])
                            ++ [Event.simctlDelete d.udid (o.deleteExit d.udid)]
                            ++ [Event.rmtreeLog d.logPath],
                  examined := st.examined ++ [d.udid], output := st.output } := by
          unfold processDevice markerPhase deletePhase
          simp [hf, hm, hexp, hrm, hex, hrt]
        refine ⟨[Event.rmtreeLog d.logPath], ?_, ?_⟩
        · rw [hpd]
          simp [resSt]
        · rw [hpd]
          refine FS.isfile_eq_false_of_lookup_none _ _ ?_
          simp only [resSt, FS.lookup_remove]
          split <;> simp
    · have hpd : processDevice o now d st =
          .ok { fs := st.fs.remove d.udid,
                trace := (st.trace ++ [Event.removeMarker d.udid])
                          ++ [Event.simctlDelete d.udid (o.deleteExit d.udid)],
                examined := st.examined ++ [d.udid], output := st.output } := by
        unfold processDevice markerPhase deletePhase
        simp [hf, hm, hexp, hrm, hex]
      refine ⟨[], ?_, ?_⟩
      · rw [hpd]
        simp [resSt]
      · rw [hpd]
        exact FS.isfile_eq_false_of_lookup_none _ _ (by simp [resSt, FS.lookup_remove])
  · intro hrm
    unfold processDevice markerPhase
    simp [hf, hm, hexp, hrm]

/-- C6: the unavailable-devices prune is the first action of every run,
before the inventory listing. When its exit code is non-zero the `check=True`
raises: the run aborts at once, no listing happens, and no device is
evaluated (`examined` stays empty and the trace holds nothing but the failed
prune call). When the prune succeeds, the trace starts with the prune call,
then the listing call, and only then the per-device actions. -/
theorem prune_precedes_listing (o : Oracles) (pruneExit : Int)
    (inv : List (String × List Device)) (now : Int) (fs : FS) :
    (pruneExit ≠ 0 →
      script o pruneExit inv now fs =
        .error (⟨fs, [Event.pruneCall pruneExit], [], []⟩,
                .pruneFailed pruneExit)) ∧
    (pruneExit = 0 →
      ∃ evs, (resSt (script o pruneExit inv now fs)).trace =
          [Event.pruneCall 0, Event.listCall] ++ evs ∧
        ∀ e ∈ evs, e.isDeviceEvent = true) := by
  constructor
  · intro h
    unfold script
    simp [h]
  · intro h
    subst h
    have hred : script o 0 inv now fs =
        runDevices o now ⟨fs, [Event.pruneCall 0, Event.listCall], [], []⟩
          (allDevices inv) := by
      unfold script
      simp
    obtain ⟨evs, us, ht, he, _, _, _⟩ :=
      runDevices_spec o now ⟨fs, [Event.pruneCall 0, Event.listCall], [], []⟩
        (allDevices inv)
    exact ⟨evs, by rw [hred]; exact ht, he⟩

/-- C8 (amended): the script itself prints nothing: whatever the run does, the
set of lines it emits is empty — in particular there is no summary of devices
examined, reclaimed or failed, and no per-failure detail. -/
theorem run_output_empty (o : Oracles) (pruneExit : Int)
    (inv : List (String × List Device)) (now : Int) (fs : FS) :
    (resSt (script o pruneExit inv now fs)).output = [] := by
  by_cases h : pruneExit = 0
  · subst h
    have hred : script o 0 inv now fs =
        runDevices o now ⟨fs, [Event.pruneCall 0, Event.listCall], [], []⟩
          (allDevices inv) := by
      unfold script
      simp
    obtain ⟨_, _, _, _, _, ho, _⟩ :=
      runDevices_spec o now ⟨fs, [Event.pruneCall 0, Event.listCall], [], []⟩
        (allDevices inv)
    rw [hred]
    exact ho
  · unfold script
    simp [h, resSt]

/-- C8 counterexample: a concrete run that examines and reclaims a device yet
emits no output line at all — so it cannot contain a count of devices
examined, reclaimed or failed, nor any per-failure detail. -/
theorem no_summary_output_cex :
    ¬ ∃ line : String, line ∈
      (resSt (script ⟨fun _ => false, fun _ => false, fun _ => 0⟩ 0
        [("rt", [⟨"u1", "data1", "log1"⟩])] 4000
        ⟨[("data1", ⟨EntryKind.dir, 0⟩), ("log1", ⟨EntryKind.dir, 0⟩)]⟩)).output := by
  rintro ⟨line, hline⟩
  have hout : (resSt (script ⟨fun _ => false, fun _ => false, fun _ => 0⟩ 0
      [("rt", [⟨"u1", "data1", "log1"⟩])] 4000
      ⟨[("data1", ⟨EntryKind.dir, 0⟩), ("log1", ⟨EntryKind.dir, 0⟩)]⟩)).output = [] := rfl
  rw [hout] at hline
  exact List.not_mem_nil line hline


theorem mem_touched {p : String} {l : List Device} :
    p ∈ touched l ↔ ∃ d ∈ l, p = d.udid ∨ p = d.logPath := by
  simp [touched, List.mem_flatMap]

theorem processDevice_ok (o : Oracles) (now : Int) (d : Device) (st : St)
    (hrm : o.removeFails d.udid = false)
    (hrt : o.rmtreeFails d.logPath = false)
    (hdp : (st.fs.getmtime d.dataPath).isSome) :
    ∃ st', processDevice o now d st = .ok st' := by
  unfold processDevice markerPhase deletePhase
  by_cases hf : st.fs.isfile d.udid
  · obtain ⟨m, hm⟩ : ∃ m, st.fs.getmtime d.udid = some m := by
      have hf' := hf
      unfold FS.isfile at hf'
      cases hl : st.fs.lookup d.udid with
      | none => rw [hl] at hf'; simp at hf'
      | some e => exact ⟨e.mtime, by simp [FS.getmtime, hl]⟩
    by_cases hle : m ≤ now
    · by_cases hex : ((st.fs.remove d.udid).pathExists d.logPath)
      · simp [hf, hm, hle, hrm, hrt, hex]
      · simp [hf, hm, hle, hrm, hex]
    · simp [hf, hm, hle]
  · obtain ⟨m, hm⟩ : ∃ m, st.fs.getmtime d.dataPath = some m := by
      cases hq : st.fs.getmtime d.dataPath with
      | none => rw [hq] at hdp; simp at hdp
      | some v => exact ⟨v, rfl⟩
    rw [Bool.not_eq_true] at hf
    by_cases hst : m ≤ now - 3600
    · by_cases hex : (st.fs.pathExists d.logPath)
      · simp [hf, hm, hst, hrt, hex]
      · simp [hf, hm, hst, hex]
    · simp [hf, hm, hst]


theorem runDevices_ok_of_clean (o : Oracles) (now : Int) (l : List Device) :
    ∀ st : St,
    (∀ p, o.removeFails p = false) →
    (∀ p, o.rmtreeFails p = false) →
    (∀ d ∈ l, (st.fs.getmtime d.dataPath).isSome ∧ d.dataPath ∉ touched l) →
    ∃ st', runDevices o now st l = .ok st' := by
  induction l with
  | nil => exact fun st _ _ _ => ⟨st, rfl⟩
  | cons d ds ih =>
    intro st hrm hrt hdp
    obtain ⟨st1, hpd⟩ :=
      processDevice_ok o now d st (hrm d.udid) (hrt d.logPath) (hdp d (by simp)).1
    obtain ⟨evs, ht, he, hx, ho, hfp⟩ := processDevice_spec o now d st
    rw [hpd] at hfp
    simp only [resSt] at hfp
    have hdp' : ∀ d2 ∈ ds, (st1.fs.getmtime d2.dataPath).isSome ∧
        d2.dataPath ∉ touched ds := by
      intro d2 hd2
      obtain ⟨hs, hn⟩ := hdp d2 (by simp [hd2])
      have hne1 : d2.dataPath ≠ d.udid := by
        intro hEq
        exact hn (mem_touched.mpr ⟨d, by simp, Or.inl hEq⟩)
      have hne2 : d2.dataPath ≠ d.logPath := by
        intro hEq
        exact hn (mem_touched.mpr ⟨d, by simp, Or.inr hEq⟩)
      refine ⟨?_, ?_⟩
      · have hpres := hfp d2.dataPath hne1 hne2
        unfold FS.getmtime at hs ⊢
        rw [hpres]
        exact hs
      · intro hmem
        obtain ⟨d3, hd3, hor⟩ := mem_touched.mp hmem
        exact hn (mem_touched.mpr ⟨d3, by simp [hd3], hor⟩)
    obtain ⟨st2, h2⟩ := ih st1 hrm hrt hdp'
    exact ⟨st2, by simp [runDevices, hpd, h2]⟩

/-- C7: running the reclaimer a second time over the survivors of a first run
is safe. After any first pass (completed or aborted), a second pass whose
inventory holds exactly the devices not successfully deleted (those with no
exit-0 `simctl delete` in the first pass's trace) finishes without error,
provided its own `os.remove`/`shutil.rmtree` calls do not spuriously fail:
every already-deleted device is gone from the listing, a marker already
removed just routes the device to the `dataPath` age check (whose path the
first run never removed), and an already-absent `logPath` is skipped by the
`os.path.exists` guard. The hypotheses ask that each device's `dataPath`
exists initially and is distinct from every marker and log path — which is
how the platform lays these files out. -/
theorem second_run_never_errors (o1 o2 : Oracles) (now1 now2 : Int)
    (st0 : St) (l : List Device)
    (hdp : ∀ d ∈ l, (st0.fs.getmtime d.dataPath).isSome ∧ d.dataPath ∉ touched l)
    (hrm2 : ∀ p, o2.removeFails p = false)
    (hrt2 : ∀ p, o2.rmtreeFails p = false) :
    ∃ st2, runDevices o2 now2 (resSt (runDevices o1 now1 st0 l))
        (survivors l (resSt (runDevices o1 now1 st0 l)).trace) = .ok st2 := by
  obtain ⟨evs, us, ht, he, hx, ho, hfp⟩ := runDevices_spec o1 now1 st0 l
  apply runDevices_ok_of_clean o2 now2 _ _ hrm2 hrt2
  intro d hd
  have hdl : d ∈ l := List.mem_of_mem_filter hd
  obtain ⟨hsome, hnt⟩ := hdp d hdl
  have hpres : (resSt (runDevices o1 now1 st0 l)).fs.lookup d.dataPath =
      st0.fs.lookup d.dataPath := by
    apply hfp
    intro d2 hd2
    constructor
    · intro hEq
      exact hnt (mem_touched.mpr ⟨d2, hd2, Or.inl hEq⟩)
    · intro hEq
      exact hnt (mem_touched.mpr ⟨d2, hd2, Or.inr hEq⟩)
  refine ⟨?_, ?_⟩
  · unfold FS.getmtime at hsome ⊢
    rw [hpres]
    exact hsome
  · intro hmem
    obtain ⟨d3, hd3, hor⟩ := mem_touched.mp hmem
    exact hnt (mem_touched.mpr ⟨d3, List.mem_of_mem_filter hd3, hor⟩)


/-- Witness for C1 at a concrete input: marker mtime 700 is strictly after
now = 100, so the device is untouched. -/
theorem active_lease_protected_witness :
    processDevice ⟨fun _ => false, fun _ => false, fun _ => 0⟩ 100
        ⟨"u3", "data3", "log3"⟩ ⟨⟨[("u3", ⟨EntryKind.file, 700⟩)]⟩, [], [], []⟩ =
      .ok ⟨⟨[("u3", ⟨EntryKind.file, 700⟩)]⟩, [], ["u3"], []⟩ :=
  active_lease_protected _ 100 700 _ _ (by decide) (by decide) (by decide)

/-- Witness for C2 at a concrete input: marker mtime 95 ≤ now = 100, no
`dataPath` entry in the filesystem at all. -/
theorem expired_lease_reclaimed_witness :
    ∃ st', processDevice ⟨fun _ => false, fun _ => false, fun _ => 0⟩ 100
        ⟨"u4", "data4", "log4"⟩
        ⟨⟨[("u4", ⟨EntryKind.file, 95⟩), ("log4", ⟨EntryKind.dir, 10⟩)]⟩, [], [], []⟩ =
        .ok st' ∧
      st'.fs.lookup "u4" = none ∧ st'.fs.lookup "log4" = none ∧
      Event.simctlDelete "u4" 0 ∈ st'.trace :=
  expired_lease_reclaimed _ 100 95 _ _ (by decide) (by decide) (by decide) rfl rfl

/-- Witness for C3 at the exact boundary: `dataPath` mtime 400 with
now = 4000, so the age is exactly 3600 and the device is reclaimed. -/
theorem absent_lease_staleness_boundary_witness :
    ∃ st', processDevice ⟨fun _ => false, fun _ => false, fun _ => 0⟩ 4000
        ⟨"u5", "data5", "log5"⟩
        ⟨⟨[("data5", ⟨EntryKind.dir, 400⟩), ("log5", ⟨EntryKind.dir, 10⟩)]⟩, [], [], []⟩ =
        .ok st' ∧
      Event.simctlDelete "u5" 0 ∈ st'.trace ∧ st'.fs.lookup "log5" = none :=
  (absent_lease_staleness_boundary _ 4000 400 _ _ (by decide) (by decide) rfl).1 (by decide)

/-- Witness for the amended C4 at a concrete input: `os.remove` fails on the
expired marker of `u6`; the run aborts and `u7` is never examined. -/
theorem marker_remove_failure_aborts_witness :
    runDevices ⟨fun p => p == "u6", fun _ => false, fun _ => 0⟩ 100
        ⟨⟨[("u6", ⟨EntryKind.file, 50⟩)]⟩, [], [], []⟩
        [⟨"u6", "data6", "log6"⟩, ⟨"u7", "data7", "log7"⟩] =
      .error (⟨⟨[("u6", ⟨EntryKind.file, 50⟩)]⟩, [], ["u6"], []⟩,
              .removeMarkerFailed "u6") :=
  marker_remove_failure_aborts _ 100 50 _ _ _ (by decide) (by decide) (by decide)
    (by decide)

/-- Witness for the amended C5 at a concrete input: `simctl delete` exits
with the non-zero code 3 for `u8`, and the run still proceeds to `u9`. -/
theorem delete_exit_ignored_rmtree_aborts_witness :
    ∃ st', processDevice ⟨fun _ => false, fun _ => false, fun _ => 3⟩ 4000
        ⟨"u8", "data8", "log8"⟩ ⟨⟨[("data8", ⟨EntryKind.dir, 0⟩)]⟩, [], [], []⟩ =
        .ok st' ∧
      runDevices ⟨fun _ => false, fun _ => false, fun _ => 3⟩ 4000
          ⟨⟨[("data8", ⟨EntryKind.dir, 0⟩)]⟩, [], [], []⟩
          [⟨"u8", "data8", "log8"⟩, ⟨"u9", "data9", "log9"⟩] =
        runDevices ⟨fun _ => false, fun _ => false, fun _ => 3⟩ 4000 st'
          [⟨"u9", "data9", "log9"⟩] :=
  (delete_exit_ignored_rmtree_aborts _ 4000 0 _ _ _ (by decide) (by decide)
    (by decide)).1 rfl

/-- Witness for C6 at a concrete input: a prune exit code of 7 aborts the run
before anything else happens. -/
theorem prune_precedes_listing_witness :
    script ⟨fun _ => false, fun _ => false, fun _ => 0⟩ 7 [] 0 ⟨[]⟩ =
      .error (⟨⟨[]⟩, [Event.pruneCall 7], [], []⟩, .pruneFailed 7) :=
  (prune_precedes_listing _ 7 [] 0 _).1 (by decide)

/-- Witness for C7 at a concrete input: one fresh device survives the first
run and the second run over the survivors completes without error. -/
theorem second_run_never_errors_witness :
    ∃ st2, runDevices ⟨fun _ => false, fun _ => false, fun _ => 0⟩ 200
        (resSt (runDevices ⟨fun _ => false, fun _ => false, fun _ => 0⟩ 100
          ⟨⟨[("data1", ⟨EntryKind.dir, 90⟩)]⟩, [], [], []⟩ [⟨"u1", "data1", "log1"⟩]))
        (survivors [⟨"u1", "data1", "log1"⟩]
          (resSt (runDevices ⟨fun _ => false, fun _ => false, fun _ => 0⟩ 100
            ⟨⟨[("data1", ⟨EntryKind.dir, 90⟩)]⟩, [], [], []⟩
            [⟨"u1", "data1", "log1"⟩])).trace) = .ok st2 :=
  second_run_never_errors ⟨fun _ => false, fun _ => false, fun _ => 0⟩
    ⟨fun _ => false, fun _ => false, fun _ => 0⟩ 100 200
    ⟨⟨[("data1", ⟨EntryKind.dir, 90⟩)]⟩, [], [], []⟩ [⟨"u1", "data1", "log1"⟩]
    (by decide) (fun p => rfl) (fun p => rfl)

/-- Witness for C9 at a concrete input: `u10` has no marker and no `dataPath`
entry, so the run aborts and `u11` is never examined. -/
theorem missing_datapath_aborts_run_witness :
    runDevices ⟨fun _ => false, fun _ => false, fun _ => 0⟩ 100 ⟨⟨[]⟩, [], [], []⟩
        [⟨"u10", "data10", "log10"⟩, ⟨"u11", "data11", "log11"⟩] =
      .error (⟨⟨[]⟩, [], ["u10"], []⟩, .getmtimeFailed "data10") :=
  missing_datapath_aborts_run _ 100 _ _ _ (by decide) (by decide)

/-- Witness for C10 at a concrete input: the trace of the iteration on `u12`
starts with the marker removal, then the delete call, and the marker is gone
afterwards. -/
theorem marker_removed_before_delete_witness :
    ∃ tail, (resSt (processDevice ⟨fun _ => false, fun _ => false, fun _ => 0⟩ 100
        ⟨"u12", "data12", "log12"⟩
        ⟨⟨[("u12", ⟨EntryKind.file, 50⟩)]⟩, [], [], []⟩)).trace =
      [Event.removeMarker "u12", Event.simctlDelete "u12" 0] ++ tail ∧
      (resSt (processDevice ⟨fun _ => false, fun _ => false, fun _ => 0⟩ 100
        ⟨"u12", "data12", "log12"⟩
        ⟨⟨[("u12", ⟨EntryKind.file, 50⟩)]⟩, [], [], []⟩)).fs.isfile "u12" = false :=
  (marker_removed_before_delete _ 100 50 _ _ (by decide) (by decide) (by decide)).1 rfl

end Cleanup
